import Mathlib

/-!
Verification of the vsyspy contract codec (vsyspy/contract.py).

Bytes are modelled as `List Nat` (each element one byte value).  Python
struct packing/unpacking is modelled by the big-endian helpers below; Python
slicing with its clamping semantics is `pySlice`.  Fallible Python code is
modelled in the `Except PyErr` monad, where `PyErr` enumerates the Python
exception classes that the relevant code paths can raise (the spec error
taxonomy maps InvalidValue to `valueError` and structural contract parse
failure to `invalidContract`).

The base58 text transport is an external collaborator (spec section 6) and
the spec treats decoded keys and addresses as plain byte identities
(section 4.3), so the model represents a base58 string directly by the byte
list it decodes to: `base58.b58decode` and `base58.b58encode` become the
identity on that byte list.  Likewise a Python text string is represented by
its byte content, since `str2bytes` and `bytes2str` are inverse bijections
between the strings appearing here and byte lists.
-/

namespace Vsyspy

/-- Python exception classes (and spec error kinds) raised by the modelled
code.  `valueError` is the InvalidValue error of the spec, `truncatedInput`
is the TruncatedInput error of the spec section 4.2 parse helpers, and
`invalidContract` is InvalidContractException. -/
inductive PyErr where
  | valueError
  | typeError
  | structError
  | attributeError
  | truncatedInput
  | invalidContract
  deriving DecidableEq, Repr

/-- Decidable equality of Except results, so that concrete runs of the
modelled code can be checked by decide. -/
instance {ε α : Type} [DecidableEq ε] [DecidableEq α] : DecidableEq (Except ε α) := fun a b =>
  match a, b with
  | .error x, .error y =>
    if h : x = y then .isTrue (by simp [h]) else .isFalse (by simp [h])
  | .error _, .ok _ => .isFalse (by simp)
  | .ok _, .error _ => .isFalse (by simp)
  | .ok x, .ok y =>
    if h : x = y then .isTrue (by simp [h]) else .isFalse (by simp [h])

/-- Model of Python struct.pack with format >H restricted to its two output
bytes; Python raises struct.error for arguments outside the 16-bit range,
so every use below is guarded by a bound or a hypothesis keeping the
argument below 2^16. -/
def pack16 (n : Nat) : List Nat := [n / 256 % 256, n % 256]

/-- Model of struct.pack with format >I (big-endian unsigned 32-bit). -/
def pack32 (n : Nat) : List Nat :=
  [n / 2 ^ 24 % 256, n / 2 ^ 16 % 256, n / 2 ^ 8 % 256, n % 256]

/-- Model of struct.pack with format >Q (big-endian unsigned 64-bit). -/
def pack64 (n : Nat) : List Nat :=
  [n / 2 ^ 56 % 256, n / 2 ^ 48 % 256, n / 2 ^ 40 % 256, n / 2 ^ 32 % 256,
   n / 2 ^ 24 % 256, n / 2 ^ 16 % 256, n / 2 ^ 8 % 256, n % 256]

/-- Big-endian value of a byte list, the common core of struct.unpack with
formats >H, >I and >Q; each call site checks the exact length that the
Python format requires. -/
def unpackBE (bs : List Nat) : Nat := bs.foldl (fun a b => a * 256 + b) 0

/-- Python slice b[i:j] for natural indices, with the clamping semantics of
Python slicing (out-of-range bounds never raise). -/
def pySlice (b : List Nat) (i j : Nat) : List Nat := (b.drop i).take (j - i)

/-- Deser.serialize_array (src/contract.py lines 96-101), branch for a bytes
argument: a 2-byte big-endian length prefix followed by the bytes (the
frameBlob of spec section 4.2). -/
def serialize_array (b : List Nat) : List Nat := pack16 b.length ++ b

/-- Deser.serialize_array, branch for a list argument: a 2-byte big-endian
element count followed by the raw concatenation of the elements (the
frameList of spec section 4.2).  The Python function is one function that
branches on the runtime type of its argument; the two branches are two Lean
definitions. -/
def serialize_array_list (bs : List (List Nat)) : List Nat :=
  pack16 bs.length ++ bs.flatten

/-- Modelled from the spec: Deser.serialize_arrays lives in vsyspy/deser.py,
which is not under src/.  Spec sections 4.2 and 4.4 and the round-trip law
of section 8 describe the framed list used by the contract sections: a
2-byte element count followed by the elements, each element independently
framed with its own 2-byte length prefix, so that parseList (parse_arrays)
recovers exactly the original elements. -/
def serialize_arrays (bs : List (List Nat)) : List Nat :=
  pack16 bs.length ++ (bs.map serialize_array).flatten

/-- Modelled from the spec: Deser.parse_array_size lives in vsyspy/deser.py,
which is not under src/.  Spec section 4.2 parseBlob: read the 2-byte
big-endian length at the offset, return the slice of that many following
bytes together with the offset just past it, and fail with TruncatedInput
when the declared length would read past the end of the buffer. -/
def parse_array_size (b : List Nat) (p : Nat) :
    Except PyErr (List Nat × Nat) :=
  if p + 2 > b.length then .error .truncatedInput
  else
    let n := unpackBE (pySlice b p (p + 2))
    if p + 2 + n > b.length then .error .truncatedInput
    else .ok (pySlice b (p + 2) (p + 2 + n), p + 2 + n)

/-- Loop of parse_arrays: consume `count` framed blobs starting at position
`p`. -/
def parse_arrays_loop (b : List Nat) : Nat → Nat → Except PyErr (List (List Nat))
  | 0, _ => .ok []
  | count + 1, p =>
    match parse_array_size b p with
    | .error e => .error e
    | .ok (x, p2) =>
      match parse_arrays_loop b count p2 with
      | .error e => .error e
      | .ok xs => .ok (x :: xs)

/-- Modelled from the spec: Deser.parse_arrays lives in vsyspy/deser.py,
which is not under src/.  Spec section 4.2 parseList: read the leading
2-byte element count, then repeatedly consume each element as a framed blob
whose own length prefix determines how far to advance, failing with
TruncatedInput past the end of the buffer. -/
def parse_arrays (b : List Nat) : Except PyErr (List (List Nat)) :=
  if b.length < 2 then .error .truncatedInput
  else parse_arrays_loop b (unpackBE (pySlice b 0 2)) 2

/-- Semantic payload of a DataEntry: either a string-like value (a base58
identifier or a text, both represented by their byte content) or a Python
integer. -/
inductive DEValue where
  | vStr (bs : List Nat)
  | vInt (i : Int)
  deriving DecidableEq, Repr

/-- DataEntry object (vsyspy/contract.py lines 266-295): semantic value,
tag byte, payload bytes and full encoded bytes, plus the data_type name
string the constructor records. -/
structure DataEntry where
  data : DEValue
  tag : Nat
  data_bytes : List Nat
  bytes : List Nat
  data_type : String
  deriving DecidableEq, Repr

/-- check_data_type (vsyspy/contract.py lines 245-263).  Returns the Bool
the Python function returns, or the exception its body raises:
struct.pack inside the numeric branches raises struct.error for values
outside the format range (and for non-integer data), serialize_array in the
short_text branch raises struct.error for texts of 2^16 or more bytes, and
the base58 or text branches raise for integer data.  The default branch
returns True for every other tag. -/
def check_data_type (d : DEValue) (t : Nat) : Except PyErr Bool :=
  if t = 1 then
    match d with
    | .vStr bs => .ok (bs.length = 32)
    | .vInt _ => .error .typeError
  else if t = 2 then
    match d with
    | .vStr bs => .ok (bs.length = 26)
    | .vInt _ => .error .typeError
  else if t = 3 then
    match d with
    | .vInt i => if i < 0 ∨ 2 ^ 64 ≤ i then .error .structError else .ok (0 < i)
    | .vStr _ => .error .structError
  else if t = 4 then
    match d with
    | .vInt i => if i < 0 ∨ 2 ^ 32 ≤ i then .error .structError else .ok (0 < i)
    | .vStr _ => .error .structError
  else if t = 5 then
    match d with
    | .vStr bs =>
      if 2 ^ 16 ≤ bs.length then .error .structError
      else .ok (bs.length + 2 ≤ 140 + 2)
    | .vInt _ => .error .typeError
  else .ok true

/-- DataEntry.__init__ (vsyspy/contract.py lines 266-295): run
check_data_type and raise ValueError when it returns False, then set
data_bytes per tag branch; a tag with no branch (account 7, boolean 10,
balance 11, and every unregistered byte) leaves data_bytes unset so the
final assembly of self.bytes raises AttributeError. -/
def mkDataEntry (d : DEValue) (t : Nat) : Except PyErr DataEntry :=
  match check_data_type d t with
  | .error e => .error e
  | .ok ok =>
    if ok = false then .error .valueError
    else if t = 1 then
      match d with
      | .vStr bs => .ok ⟨d, t, bs, t :: bs, "public_key"⟩
      | .vInt _ => .error .typeError
    else if t = 2 then
      match d with
      | .vStr bs => .ok ⟨d, t, bs, t :: bs, "address"⟩
      | .vInt _ => .error .typeError
    else if t = 3 then
      match d with
      | .vInt i =>
        if i < 0 ∨ 2 ^ 64 ≤ i then .error .structError
        else .ok ⟨d, t, pack64 i.toNat, t :: pack64 i.toNat, "amount"⟩
      | .vStr _ => .error .structError
    else if t = 4 then
      match d with
      | .vInt i =>
        if i < 0 ∨ 2 ^ 32 ≤ i then .error .structError
        else .ok ⟨d, t, pack32 i.toNat, t :: pack32 i.toNat, "int32"⟩
      | .vStr _ => .error .structError
    else if t = 5 then
      match d with
      | .vStr bs =>
        if 2 ^ 16 ≤ bs.length then .error .structError
        else .ok ⟨d, t, serialize_array bs, t :: serialize_array bs, "short_text"⟩
      | .vInt _ => .error .typeError
    else if t = 6 then
      match d with
      | .vStr bs => .ok ⟨d, t, bs, t :: bs, "contract_account"⟩
      | .vInt _ => .error .typeError
    else if t = 8 then
      match d with
      | .vStr bs => .ok ⟨d, t, bs, t :: bs, "token_id"⟩
      | .vInt _ => .error .typeError
    else if t = 9 then
      match d with
      | .vInt i =>
        if i < 0 ∨ 2 ^ 64 ≤ i then .error .structError
        else .ok ⟨d, t, pack64 i.toNat, t :: pack64 i.toNat, "timestamp"⟩
      | .vStr _ => .error .structError
    else .error .attributeError

/-- serialize_data (vsyspy/contract.py lines 171-177): collect the encoded
bytes of each entry and frame the collection with Deser.serialize_array,
whose list branch emits a 2-byte entry count followed by the concatenation. -/
def serialize_data (xs : List DataEntry) : List Nat :=
  serialize_array_list (xs.map (·.bytes))

/-- data_entry_from_bytes (vsyspy/contract.py lines 224-242): raise
ValueError on an empty slice, otherwise dispatch on the tag byte and rebuild
the entry through the DataEntry constructor; the numeric branches unpack a
fixed-width integer (struct.error unless the remaining slice has exactly the
required width).  A tag byte outside the registered branches falls through
every elif and the Python function implicitly returns None. -/
def data_entry_from_bytes (b : List Nat) : Except PyErr (Option DataEntry) :=
  if b.length = 0 then .error .valueError
  else if pySlice b 0 1 = [1] then (mkDataEntry (.vStr (b.drop 1)) 1).map some
  else if pySlice b 0 1 = [2] then (mkDataEntry (.vStr (b.drop 1)) 2).map some
  else if pySlice b 0 1 = [3] then
    if (b.drop 1).length ≠ 8 then .error .structError
    else (mkDataEntry (.vInt (unpackBE (b.drop 1) : Int)) 3).map some
  else if pySlice b 0 1 = [4] then
    if (b.drop 1).length ≠ 4 then .error .structError
    else (mkDataEntry (.vInt (unpackBE (b.drop 1) : Int)) 4).map some
  else if pySlice b 0 1 = [5] then (mkDataEntry (.vStr (b.drop 3)) 5).map some
  else if pySlice b 0 1 = [6] then (mkDataEntry (.vStr (b.drop 1)) 6).map some
  else if pySlice b 0 1 = [8] then (mkDataEntry (.vStr (b.drop 1)) 8).map some
  else if pySlice b 0 1 = [9] then
    if (b.drop 1).length ≠ 8 then .error .structError
    else (mkDataEntry (.vInt (unpackBE (b.drop 1) : Int)) 9).map some
  else .ok none

/-- parse_data_entry_array_size (vsyspy/contract.py lines 195-221): dispatch
on the tag byte at the start position, slice the fixed number of bytes for
that tag (the short_text case first reads its 2-byte inner length), decode
the slice with data_entry_from_bytes, and return it with the position just
past the entry.  A tag byte outside the registered branches falls through
every elif and the Python function implicitly returns None — hence the
result is an Option, and the entry inside the returned pair is itself the
Option that data_entry_from_bytes returns. -/
def parse_data_entry_array_size (b : List Nat) (p : Nat) :
    Except PyErr (Option (Option DataEntry × Nat)) :=
  if pySlice b p (p + 1) = [1] then
    (data_entry_from_bytes (pySlice b p (p + 32 + 1))).map
      (fun oe => some (oe, p + 32 + 1))
  else if pySlice b p (p + 1) = [2] then
    (data_entry_from_bytes (pySlice b p (p + 26 + 1))).map
      (fun oe => some (oe, p + 26 + 1))
  else if pySlice b p (p + 1) = [3] then
    (data_entry_from_bytes (pySlice b p (p + 8 + 1))).map
      (fun oe => some (oe, p + 8 + 1))
  else if pySlice b p (p + 1) = [4] then
    (data_entry_from_bytes (pySlice b p (p + 4 + 1))).map
      (fun oe => some (oe, p + 4 + 1))
  else if pySlice b p (p + 1) = [5] then
    if (pySlice b (p + 1) (p + 3)).length ≠ 2 then .error .structError
    else
      let n := unpackBE (pySlice b (p + 1) (p + 3))
      (data_entry_from_bytes (pySlice b p (p + n + 3))).map
        (fun oe => some (oe, p + n + 3))
  else if pySlice b p (p + 1) = [6] then
    (data_entry_from_bytes (pySlice b p (p + 26 + 1))).map
      (fun oe => some (oe, p + 26 + 1))
  else if pySlice b p (p + 1) = [8] then
    (data_entry_from_bytes (pySlice b p (p + 30 + 1))).map
      (fun oe => some (oe, p + 30 + 1))
  else if pySlice b p (p + 1) = [9] then
    (data_entry_from_bytes (pySlice b p (p + 8 + 1))).map
      (fun oe => some (oe, p + 8 + 1))
  else .ok none

/-- Loop of data_entries_from_bytes: decode `count` entries starting at
position `p`, threading the position.  When the dispatch returns None, the
Python statement unpacking the pair raises TypeError. -/
def data_entries_loop (b : List Nat) :
    Nat → Nat → Except PyErr (List (Option DataEntry))
  | 0, _ => .ok []
  | count + 1, p =>
    match parse_data_entry_array_size b p with
    | .error e => .error e
    | .ok none => .error .typeError
    | .ok (some (oe, p2)) =>
      match data_entries_loop b count p2 with
      | .error e => .error e
      | .ok rest => .ok (oe :: rest)

/-- data_entries_from_bytes (vsyspy/contract.py lines 185-192): read the
leading 2-byte entry count (struct.error when fewer than two bytes remain),
then decode exactly that many entries from position 2 on. -/
def data_entries_from_bytes (b : List Nat) :
    Except PyErr (List (Option DataEntry)) :=
  if b.length < 2 then .error .structError
  else data_entries_loop b (unpackBE (pySlice b 0 2)) 2

/-- Contract object (vsyspy/contract.py lines 40-138). -/
structure Contract where
  language_code : List Nat
  language_version : List Nat
  trigger : List (List Nat)
  descriptor : List (List Nat)
  state_variable : List (List Nat)
  state_map : List (List Nat)
  textual : List (List Nat)
  deriving DecidableEq, Repr

/-- Contract.bytes (vsyspy/contract.py lines 100-114): header, the three
blob-wrapped framed sections, for language version other than 1 also the
blob-wrapped framed state_map section, and finally the framed (but not
blob-wrapped) textual section. -/
def Contract.bytes (c : Contract) : List Nat :=
  if c.language_version = pack32 1 then
    c.language_code ++ c.language_version
      ++ serialize_array (serialize_arrays c.trigger)
      ++ serialize_array (serialize_arrays c.descriptor)
      ++ serialize_array (serialize_arrays c.state_variable)
      ++ serialize_arrays c.textual
  else
    c.language_code ++ c.language_version
      ++ serialize_array (serialize_arrays c.trigger)
      ++ serialize_array (serialize_arrays c.descriptor)
      ++ serialize_array (serialize_arrays c.state_variable)
      ++ serialize_array (serialize_arrays c.state_map)
      ++ serialize_arrays c.textual

/-- Contract.from_bytes (vsyspy/contract.py lines 124-138).  The slices at
fixed offsets use the spec section 3 field widths (language code 4 bytes,
language version 4 bytes, the ContractMeta constants of the setting module
that is not under src/).  For language version 1 the state_map section is
not consumed and state_map is parsed from an empty frame.  The Python
handler is written `except ValueError or TypeError`, which by Python
semantics evaluates to ValueError alone, so only ValueError is converted to
InvalidContractException and every other exception propagates unchanged. -/
def Contract.from_bytes (b : List Nat) : Except PyErr Contract :=
  let body : Except PyErr Contract :=
    match parse_array_size b (4 + 4) with
    | .error e => .error e
    | .ok (trigger_bytes, trigger_end) =>
      match parse_arrays trigger_bytes with
      | .error e => .error e
      | .ok trigger =>
        match parse_array_size b trigger_end with
        | .error e => .error e
        | .ok (descriptor_bytes, descriptor_end) =>
          match parse_arrays descriptor_bytes with
          | .error e => .error e
          | .ok descriptor =>
            match parse_array_size b descriptor_end with
            | .error e => .error e
            | .ok (state_variable_bytes, state_variable_end) =>
              match parse_arrays state_variable_bytes with
              | .error e => .error e
              | .ok state_variable =>
                match (if pySlice b 4 8 = pack32 1 then
                        .ok (state_variable_bytes, state_variable_end)
                      else parse_array_size b state_variable_end :
                      Except PyErr (List Nat × Nat)) with
                | .error e => .error e
                | .ok (state_map_bytes, state_map_end) =>
                  match (if pySlice b 4 8 = pack32 1 then
                          parse_arrays (pack16 0)
                        else parse_arrays state_map_bytes) with
                  | .error e => .error e
                  | .ok state_map =>
                    match parse_arrays (pySlice b state_map_end b.length) with
                    | .error e => .error e
                    | .ok textual =>
                      .ok ⟨pySlice b 0 4, pySlice b 4 8, trigger, descriptor,
                           state_variable, state_map, textual⟩
  match body with
  | .error .valueError => .error .invalidContract
  | r => r

/-- list_opc_gen (vsyspy/contract.py lines 815-821): zip the opcodes with
their operand-index bytes, emit a 2-byte total length (the sum over the
zipped pairs of the pair length plus its own 2-byte prefix, plus 2 for the
count field), a 2-byte instruction count, and each instruction
length-prefixed. -/
def list_opc_gen (ids index_input : List (List Nat)) : List Nat :=
  let zipped := ids.zip index_input
  let length := pack16 ((zipped.map (fun x => (x.1 ++ x.2).length + 2)).sum + 2)
  let num_opc := pack16 ids.length
  let list_opc := (zipped.map (fun x => pack16 (x.1 ++ x.2).length ++ x.1 ++ x.2)).flatten
  length ++ num_opc ++ list_opc

/-- Validity of a DataEntry, following spec section 3: the entry was built
by the DataEntry constructor and its raw payload length matches the fixed
length of its tag.  The constructor itself enforces the length rule for
every registered tag except ContractAccount and TokenId, whose
check_data_type branch is the permissive default, so the spec length rule
for those two tags is imposed here explicitly. -/
def ValidEntry (x : DataEntry) : Prop :=
  ∃ d t, mkDataEntry d t = .ok x ∧
    (t = 6 → x.data_bytes.length = 26) ∧ (t = 8 → x.data_bytes.length = 30)

/-- Validity bounds for one contract section: the element count, every
element size and the framed section size all fit their 2-byte length
fields. -/
def SectionOK (l : List (List Nat)) : Prop :=
  l.length < 2 ^ 16 ∧ (∀ e ∈ l, e.length < 2 ^ 16) ∧
    (serialize_arrays l).length < 2 ^ 16

instance (l : List (List Nat)) : Decidable (SectionOK l) := by
  unfold SectionOK
  infer_instance

/-- Concrete Amount entry with value 100, the concrete scenario of spec
section 8. -/
def amount100 : DataEntry := ⟨.vInt 100, 3, pack64 100, 3 :: pack64 100, "amount"⟩

/-- Concrete version-1 contract used to instantiate the contract theorems. -/
def sampleContractV1 : Contract :=
  ⟨[118, 100, 100, 115], pack32 1, [[7, 7]], [[9]], [[1]], [], [[2, 3]]⟩

/-- Concrete version-2 contract with a nonempty state map. -/
def sampleContractV2 : Contract :=
  ⟨[118, 100, 100, 115], pack32 2, [[7, 7]], [[9]], [[1]], [[4, 4, 4]], [[2, 3]]⟩

/-- Concrete version-2 contract with an empty state map. -/
def sampleContractV2empty : Contract :=
  ⟨[118, 100, 100, 115], pack32 2, [[7, 7]], [[9]], [[1]], [], [[2, 3]]⟩

theorem unpackBE_pack16 (n : Nat) (h : n < 2 ^ 16) : unpackBE (pack16 n) = n := by
  simp only [unpackBE, pack16, List.foldl]
  omega

theorem unpackBE_pack32 (n : Nat) (h : n < 2 ^ 32) : unpackBE (pack32 n) = n := by
  simp only [unpackBE, pack32, List.foldl]
  omega

theorem unpackBE_pack64 (n : Nat) (h : n < 2 ^ 64) : unpackBE (pack64 n) = n := by
  simp only [unpackBE, pack64, List.foldl]
  omega

theorem pack16_length (n : Nat) : (pack16 n).length = 2 := rfl

theorem pack32_length (n : Nat) : (pack32 n).length = 4 := rfl

theorem pack64_length (n : Nat) : (pack64 n).length = 8 := rfl


/-! Inversion of the DataEntry constructor: a successful construction only
happens in one of the eight tag branches, and each branch determines the
whole entry from the input value. -/

theorem mkDataEntry_ok_tags {d : DEValue} {t : Nat} {x : DataEntry}
    (h : mkDataEntry d t = .ok x) :
    t = 1 ∨ t = 2 ∨ t = 3 ∨ t = 4 ∨ t = 5 ∨ t = 6 ∨ t = 8 ∨ t = 9 := by
  by_contra hc
  push_neg at hc
  obtain ⟨h1, h2, h3, h4, h5, h6, h8, h9⟩ := hc
  simp [mkDataEntry, check_data_type, h1, h2, h3, h4, h5, h6, h8, h9] at h

theorem mkDataEntry_ok_inv_pk {d : DEValue} {t : Nat} {x : DataEntry}
    (h : mkDataEntry d t = .ok x) (h1 : t = 1) :
    ∃ bs, d = .vStr bs ∧ bs.length = 32 ∧
      x = ⟨d, 1, bs, 1 :: bs, "public_key"⟩ := by
  subst h1
  cases d with
  | vStr bs =>
    simp [mkDataEntry, check_data_type] at h
    split_ifs at h with hb
    exact ⟨bs, rfl, hb, (Except.ok.inj h).symm⟩
  | vInt i => simp [mkDataEntry, check_data_type] at h

theorem mkDataEntry_ok_inv_addr {d : DEValue} {t : Nat} {x : DataEntry}
    (h : mkDataEntry d t = .ok x) (h1 : t = 2) :
    ∃ bs, d = .vStr bs ∧ bs.length = 26 ∧
      x = ⟨d, 2, bs, 2 :: bs, "address"⟩ := by
  subst h1
  cases d with
  | vStr bs =>
    simp [mkDataEntry, check_data_type] at h
    split_ifs at h with hb
    exact ⟨bs, rfl, hb, (Except.ok.inj h).symm⟩
  | vInt i => simp [mkDataEntry, check_data_type] at h

theorem mkDataEntry_ok_inv_amount {d : DEValue} {t : Nat} {x : DataEntry}
    (h : mkDataEntry d t = .ok x) (h1 : t = 3) :
    ∃ i : Int, d = .vInt i ∧ 0 < i ∧ i < 2 ^ 64 ∧
      x = ⟨d, 3, pack64 i.toNat, 3 :: pack64 i.toNat, "amount"⟩ := by
  subst h1
  cases d with
  | vStr bs => simp [mkDataEntry, check_data_type] at h
  | vInt i =>
    by_cases hr : i < 0 ∨ (18446744073709551616 : Int) ≤ i
    · simp [mkDataEntry, check_data_type, hr] at h
    · by_cases hpos : 0 < i
      · simp [mkDataEntry, check_data_type, hr, hpos] at h
        refine ⟨i, rfl, hpos, by omega, ?_⟩
        simp_all
      · simp [mkDataEntry, check_data_type, hr, hpos] at h

theorem mkDataEntry_ok_inv_int32 {d : DEValue} {t : Nat} {x : DataEntry}
    (h : mkDataEntry d t = .ok x) (h1 : t = 4) :
    ∃ i : Int, d = .vInt i ∧ 0 < i ∧ i < 2 ^ 32 ∧
      x = ⟨d, 4, pack32 i.toNat, 4 :: pack32 i.toNat, "int32"⟩ := by
  subst h1
  cases d with
  | vStr bs => simp [mkDataEntry, check_data_type] at h
  | vInt i =>
    by_cases hr : i < 0 ∨ (4294967296 : Int) ≤ i
    · simp [mkDataEntry, check_data_type, hr] at h
    · by_cases hpos : 0 < i
      · simp [mkDataEntry, check_data_type, hr, hpos] at h
        refine ⟨i, rfl, hpos, by omega, ?_⟩
        simp_all
      · simp [mkDataEntry, check_data_type, hr, hpos] at h

theorem mkDataEntry_ok_inv_text {d : DEValue} {t : Nat} {x : DataEntry}
    (h : mkDataEntry d t = .ok x) (h1 : t = 5) :
    ∃ bs, d = .vStr bs ∧ bs.length ≤ 140 ∧
      x = ⟨d, 5, serialize_array bs, 5 :: serialize_array bs, "short_text"⟩ := by
  subst h1
  cases d with
  | vStr bs =>
    by_cases hr : (65536 : Nat) ≤ bs.length
    · simp [mkDataEntry, check_data_type, hr] at h
    · by_cases hlen : bs.length ≤ 140
      · simp [mkDataEntry, check_data_type, hr, hlen] at h
        refine ⟨bs, rfl, hlen, ?_⟩
        simp_all
      · simp [mkDataEntry, check_data_type, hr, hlen] at h
  | vInt i => simp [mkDataEntry, check_data_type] at h

theorem mkDataEntry_ok_inv_ca {d : DEValue} {t : Nat} {x : DataEntry}
    (h : mkDataEntry d t = .ok x) (h1 : t = 6) :
    ∃ bs, d = .vStr bs ∧ x = ⟨d, 6, bs, 6 :: bs, "contract_account"⟩ := by
  subst h1
  cases d with
  | vStr bs =>
    simp [mkDataEntry, check_data_type] at h
    exact ⟨bs, rfl, h.symm⟩
  | vInt i => simp [mkDataEntry, check_data_type] at h

theorem mkDataEntry_ok_inv_tid {d : DEValue} {t : Nat} {x : DataEntry}
    (h : mkDataEntry d t = .ok x) (h1 : t = 8) :
    ∃ bs, d = .vStr bs ∧ x = ⟨d, 8, bs, 8 :: bs, "token_id"⟩ := by
  subst h1
  cases d with
  | vStr bs =>
    simp [mkDataEntry, check_data_type] at h
    exact ⟨bs, rfl, h.symm⟩
  | vInt i => simp [mkDataEntry, check_data_type] at h

theorem mkDataEntry_ok_inv_ts {d : DEValue} {t : Nat} {x : DataEntry}
    (h : mkDataEntry d t = .ok x) (h1 : t = 9) :
    ∃ i : Int, d = .vInt i ∧ 0 ≤ i ∧ i < 2 ^ 64 ∧
      x = ⟨d, 9, pack64 i.toNat, 9 :: pack64 i.toNat, "timestamp"⟩ := by
  subst h1
  cases d with
  | vStr bs => simp [mkDataEntry, check_data_type] at h
  | vInt i =>
    by_cases hr : i < 0 ∨ (18446744073709551616 : Int) ≤ i
    · simp [mkDataEntry, check_data_type, hr] at h
    · simp [mkDataEntry, check_data_type, hr] at h
      refine ⟨i, rfl, by omega, by omega, ?_⟩
      simp_all

/-! Slice arithmetic helpers. -/

theorem pySlice_pre (pre rest : List Nat) (j : Nat) :
    pySlice (pre ++ rest) pre.length j = rest.take (j - pre.length) := by
  simp [pySlice, List.drop_left]



/-- Parsing one entry: at the position where the bytes of a valid entry start,
parse_data_entry_array_size returns exactly that entry and advances past
its bytes, whatever bytes follow. -/
theorem parse_entry_at {x : DataEntry} (hx : ValidEntry x) (pre post : List Nat) :
    parse_data_entry_array_size (pre ++ x.bytes ++ post) pre.length =
      .ok (some (some x, pre.length + x.bytes.length)) := by
  obtain ⟨d, t, h, h6, h8⟩ := hx
  rcases mkDataEntry_ok_tags h with h1 | h1 | h1 | h1 | h1 | h1 | h1 | h1
  · -- public_key, payload 32
    obtain ⟨bs, hd, hblen, hxeq⟩ := mkDataEntry_ok_inv_pk h h1
    subst hd h1 hxeq
    rw [List.append_assoc]
    have hts : pySlice (pre ++ ((1 :: bs) ++ post)) pre.length
        (pre.length + 1) = [1] := by
      rw [pySlice_pre]
      have hsub : pre.length + 1 - pre.length = 1 := by omega
      rw [hsub]; simp
    have hps : pySlice (pre ++ ((1 :: bs) ++ post)) pre.length
        (pre.length + 32 + 1) = 1 :: bs := by
      rw [pySlice_pre]
      have hsub : pre.length + 32 + 1 - pre.length = 33 := by omega
      rw [hsub]
      exact List.take_left' (by simp [hblen])
    unfold parse_data_entry_array_size
    rw [hts, hps]
    simp [data_entry_from_bytes, pySlice, h, Except.map, hblen]
  · -- address, payload 26
    obtain ⟨bs, hd, hblen, hxeq⟩ := mkDataEntry_ok_inv_addr h h1
    subst hd h1 hxeq
    rw [List.append_assoc]
    have hts : pySlice (pre ++ ((2 :: bs) ++ post)) pre.length
        (pre.length + 1) = [2] := by
      rw [pySlice_pre]
      have hsub : pre.length + 1 - pre.length = 1 := by omega
      rw [hsub]; simp
    have hps : pySlice (pre ++ ((2 :: bs) ++ post)) pre.length
        (pre.length + 26 + 1) = 2 :: bs := by
      rw [pySlice_pre]
      have hsub : pre.length + 26 + 1 - pre.length = 27 := by omega
      rw [hsub]
      exact List.take_left' (by simp [hblen])
    unfold parse_data_entry_array_size
    rw [hts, hps]
    simp [data_entry_from_bytes, pySlice, h, Except.map, hblen]
  · -- amount, payload 8
    obtain ⟨i, hd, hpos, hlt, hxeq⟩ := mkDataEntry_ok_inv_amount h h1
    subst hd h1 hxeq
    rw [List.append_assoc]
    have hts : pySlice (pre ++ ((3 :: pack64 i.toNat) ++ post)) pre.length
        (pre.length + 1) = [3] := by
      rw [pySlice_pre]
      have hsub : pre.length + 1 - pre.length = 1 := by omega
      rw [hsub]; simp
    have hps : pySlice (pre ++ ((3 :: pack64 i.toNat) ++ post)) pre.length
        (pre.length + 8 + 1) = 3 :: pack64 i.toNat := by
      rw [pySlice_pre]
      have hsub : pre.length + 8 + 1 - pre.length = 9 := by omega
      rw [hsub]
      exact List.take_left' (by simp [pack64_length])
    have hnn : ((i.toNat : Int)) = i := Int.toNat_of_nonneg hpos.le
    have hlt2 : i.toNat < 2 ^ 64 := by omega
    unfold parse_data_entry_array_size
    rw [hts, hps]
    simp [data_entry_from_bytes, pySlice, pack64_length,
      unpackBE_pack64 _ hlt2, hnn, h, Except.map]
  · -- int32, payload 4
    obtain ⟨i, hd, hpos, hlt, hxeq⟩ := mkDataEntry_ok_inv_int32 h h1
    subst hd h1 hxeq
    rw [List.append_assoc]
    have hts : pySlice (pre ++ ((4 :: pack32 i.toNat) ++ post)) pre.length
        (pre.length + 1) = [4] := by
      rw [pySlice_pre]
      have hsub : pre.length + 1 - pre.length = 1 := by omega
      rw [hsub]; simp
    have hps : pySlice (pre ++ ((4 :: pack32 i.toNat) ++ post)) pre.length
        (pre.length + 4 + 1) = 4 :: pack32 i.toNat := by
      rw [pySlice_pre]
      have hsub : pre.length + 4 + 1 - pre.length = 5 := by omega
      rw [hsub]
      exact List.take_left' (by simp [pack32_length])
    have hnn : ((i.toNat : Int)) = i := Int.toNat_of_nonneg hpos.le
    have hlt2 : i.toNat < 2 ^ 32 := by omega
    unfold parse_data_entry_array_size
    rw [hts, hps]
    simp [data_entry_from_bytes, pySlice, pack32_length,
      unpackBE_pack32 _ hlt2, hnn, h, Except.map]
  · -- short_text, variable payload
    obtain ⟨bs, hd, hblen, hxeq⟩ := mkDataEntry_ok_inv_text h h1
    subst hd h1 hxeq
    rw [List.append_assoc]
    have hts : pySlice (pre ++ ((5 :: serialize_array bs) ++ post)) pre.length
        (pre.length + 1) = [5] := by
      rw [pySlice_pre]
      have hsub : pre.length + 1 - pre.length = 1 := by omega
      rw [hsub]; simp
    have hinner : pySlice (pre ++ ((5 :: serialize_array bs) ++ post))
        (pre.length + 1) (pre.length + 3) = pack16 bs.length := by
      have h5 : pre ++ ((5 :: serialize_array bs) ++ post)
          = (pre ++ [5]) ++ (pack16 bs.length ++ (bs ++ post)) := by
        simp [serialize_array]
      have hl : pre.length + 1 = (pre ++ [5]).length := by simp
      rw [h5, hl, pySlice_pre]
      have hsub : pre.length + 3 - (pre ++ [5]).length = 2 := by simp
      rw [hsub]
      exact List.take_left' (pack16_length bs.length)
    have hps : pySlice (pre ++ ((5 :: serialize_array bs) ++ post)) pre.length
        (pre.length + bs.length + 3) = 5 :: serialize_array bs := by
      rw [pySlice_pre]
      have hsub : pre.length + bs.length + 3 - pre.length = bs.length + 3 := by
        omega
      rw [hsub]
      exact List.take_left' (by simp [serialize_array, pack16_length]; omega)
    have hb16 : bs.length < 2 ^ 16 := by omega
    have hde : data_entry_from_bytes (5 :: serialize_array bs)
        = .ok (some ⟨.vStr bs, 5, serialize_array bs, 5 :: serialize_array bs,
            "short_text"⟩) := by
      have hdrop : (5 :: serialize_array bs).drop 3 = bs := by
        simp [serialize_array, pack16]
      simp [data_entry_from_bytes, pySlice, hdrop, h, Except.map]
    unfold parse_data_entry_array_size
    rw [hts, hinner]
    simp only [pack16_length, unpackBE_pack16 _ hb16]
    rw [hps, hde]
    simp [serialize_array, pack16_length, Except.map]
    omega
  · -- contract_account, payload 26 by the validity length rule
    obtain ⟨bs, hd, hxeq⟩ := mkDataEntry_ok_inv_ca h h1
    subst hd h1 hxeq
    have hblen : bs.length = 26 := by simpa using h6 rfl
    rw [List.append_assoc]
    have hts : pySlice (pre ++ ((6 :: bs) ++ post)) pre.length
        (pre.length + 1) = [6] := by
      rw [pySlice_pre]
      have hsub : pre.length + 1 - pre.length = 1 := by omega
      rw [hsub]; simp
    have hps : pySlice (pre ++ ((6 :: bs) ++ post)) pre.length
        (pre.length + 26 + 1) = 6 :: bs := by
      rw [pySlice_pre]
      have hsub : pre.length + 26 + 1 - pre.length = 27 := by omega
      rw [hsub]
      exact List.take_left' (by simp [hblen])
    unfold parse_data_entry_array_size
    rw [hts, hps]
    simp [data_entry_from_bytes, pySlice, h, Except.map, hblen]
  · -- token_id, payload 30 by the validity length rule
    obtain ⟨bs, hd, hxeq⟩ := mkDataEntry_ok_inv_tid h h1
    subst hd h1 hxeq
    have hblen : bs.length = 30 := by simpa using h8 rfl
    rw [List.append_assoc]
    have hts : pySlice (pre ++ ((8 :: bs) ++ post)) pre.length
        (pre.length + 1) = [8] := by
      rw [pySlice_pre]
      have hsub : pre.length + 1 - pre.length = 1 := by omega
      rw [hsub]; simp
    have hps : pySlice (pre ++ ((8 :: bs) ++ post)) pre.length
        (pre.length + 30 + 1) = 8 :: bs := by
      rw [pySlice_pre]
      have hsub : pre.length + 30 + 1 - pre.length = 31 := by omega
      rw [hsub]
      exact List.take_left' (by simp [hblen])
    unfold parse_data_entry_array_size
    rw [hts, hps]
    simp [data_entry_from_bytes, pySlice, h, Except.map, hblen]
  · -- timestamp, payload 8
    obtain ⟨i, hd, hpos, hlt, hxeq⟩ := mkDataEntry_ok_inv_ts h h1
    subst hd h1 hxeq
    rw [List.append_assoc]
    have hts : pySlice (pre ++ ((9 :: pack64 i.toNat) ++ post)) pre.length
        (pre.length + 1) = [9] := by
      rw [pySlice_pre]
      have hsub : pre.length + 1 - pre.length = 1 := by omega
      rw [hsub]; simp
    have hps : pySlice (pre ++ ((9 :: pack64 i.toNat) ++ post)) pre.length
        (pre.length + 8 + 1) = 9 :: pack64 i.toNat := by
      rw [pySlice_pre]
      have hsub : pre.length + 8 + 1 - pre.length = 9 := by omega
      rw [hsub]
      exact List.take_left' (by simp [pack64_length])
    have hnn : ((i.toNat : Int)) = i := Int.toNat_of_nonneg hpos
    have hlt2 : i.toNat < 2 ^ 64 := by omega
    unfold parse_data_entry_array_size
    rw [hts, hps]
    simp [data_entry_from_bytes, pySlice, pack64_length,
      unpackBE_pack64 _ hlt2, hnn, h, Except.map]

/-- Decoding loop correctness: decoding n entries from the concatenation of
the bytes of n valid entries, starting right after a prefix, returns exactly
those entries, whatever bytes follow. -/
theorem data_entries_loop_ok (xs : List DataEntry)
    (hxs : ∀ x ∈ xs, ValidEntry x) (pre post : List Nat) :
    data_entries_loop (pre ++ (xs.map (·.bytes)).flatten ++ post)
      xs.length pre.length = .ok (xs.map some) := by
  induction xs generalizing pre with
  | nil => simp [data_entries_loop]
  | cons x xs ih =>
    have hvx : ValidEntry x := hxs x (by simp)
    have hrest : ∀ y ∈ xs, ValidEntry y := fun y hy => hxs y (by simp [hy])
    have hb : pre ++ ((x :: xs).map (·.bytes)).flatten ++ post
        = pre ++ x.bytes ++ ((xs.map (·.bytes)).flatten ++ post) := by simp
    rw [hb]
    show data_entries_loop _ (xs.length + 1) pre.length = _
    rw [data_entries_loop, parse_entry_at hvx pre ((xs.map (·.bytes)).flatten ++ post)]
    have ih2 := ih hrest (pre ++ x.bytes)
    simp only [List.append_assoc, List.length_append] at ih2 ⊢
    rw [ih2]
    simp

end Vsyspy
namespace Vsyspy

theorem data_entries_from_bytes_serialize (xs : List DataEntry)
    (hxs : ∀ x ∈ xs, ValidEntry x) (hlen : xs.length < 2 ^ 16)
    (post : List Nat) :
    data_entries_from_bytes (serialize_data xs ++ post) = .ok (xs.map some) := by
  have hloop := data_entries_loop_ok xs hxs (pack16 xs.length) post
  rw [pack16_length] at hloop
  have hb : serialize_data xs ++ post
      = pack16 xs.length ++ (xs.map (·.bytes)).flatten ++ post := by
    simp [serialize_data, serialize_array_list]
  rw [hb]
  unfold data_entries_from_bytes
  rw [if_neg (by simp [pack16])]
  have hsl : pySlice (pack16 xs.length ++ (xs.map (·.bytes)).flatten ++ post) 0 2
      = pack16 xs.length := by
    show ((pack16 xs.length ++ (xs.map (·.bytes)).flatten ++ post).drop 0).take (2 - 0)
        = pack16 xs.length
    rw [List.drop_zero, List.append_assoc]
    exact List.take_left' (pack16_length _)
  rw [hsl, unpackBE_pack16 _ hlen]
  exact hloop

end Vsyspy
namespace Vsyspy

theorem serialize_round_nil (xs : List DataEntry)
    (hxs : ∀ x ∈ xs, ValidEntry x) (hlen : xs.length < 2 ^ 16) :
    data_entries_from_bytes (serialize_data xs) = .ok (xs.map some) := by
  have h := data_entries_from_bytes_serialize xs hxs hlen []
  simpa using h

/-- The concrete Amount entry is a valid entry. -/
theorem amount100_valid : ValidEntry amount100 :=
  ⟨.vInt 100, 3, by decide, by decide, by decide⟩

theorem parse_array_size_chain (pre x post : List Nat) (hx : x.length < 2 ^ 16) :
    parse_array_size ((pre ++ serialize_array x) ++ post) pre.length
      = .ok (x, (pre ++ serialize_array x).length) := by
  have hb : (pre ++ serialize_array x) ++ post
      = pre ++ (pack16 x.length ++ (x ++ post)) := by simp [serialize_array]
  have hlen : ((pre ++ serialize_array x) ++ post).length
      = pre.length + (2 + (x.length + post.length)) := by
    simp [serialize_array, pack16]
    omega
  have hplen : (pre ++ serialize_array x).length = pre.length + (2 + x.length) := by
    simp [serialize_array, pack16]
    omega
  have hsl2 : pySlice ((pre ++ serialize_array x) ++ post) pre.length
      (pre.length + 2) = pack16 x.length := by
    rw [hb, pySlice_pre]
    have hsub : pre.length + 2 - pre.length = 2 := by omega
    rw [hsub]
    exact List.take_left' (pack16_length _)
  have hsl3 : pySlice ((pre ++ serialize_array x) ++ post) (pre.length + 2)
      (pre.length + 2 + x.length) = x := by
    have hb2 : (pre ++ serialize_array x) ++ post
        = (pre ++ pack16 x.length) ++ (x ++ post) := by simp [serialize_array]
    have hl2 : pre.length + 2 = (pre ++ pack16 x.length).length := by
      simp [pack16_length]
    rw [hb2, hl2, pySlice_pre]
    have hsub : (pre ++ pack16 x.length).length + x.length
        - (pre ++ pack16 x.length).length = x.length := by omega
    rw [hsub]
    exact List.take_left' rfl
  unfold parse_array_size
  rw [if_neg (by rw [hlen]; omega), hsl2]
  simp only [unpackBE_pack16 _ hx]
  rw [if_neg (by rw [hlen]; omega), hsl3, hplen]
  simp [Nat.add_assoc]

theorem parse_arrays_loop_ok (l : List (List Nat))
    (hl : ∀ e ∈ l, e.length < 2 ^ 16) (pre post : List Nat) :
    parse_arrays_loop (pre ++ (l.map serialize_array).flatten ++ post)
      l.length pre.length = .ok l := by
  induction l generalizing pre with
  | nil => simp [parse_arrays_loop]
  | cons x xs ih =>
    have hb : pre ++ ((x :: xs).map serialize_array).flatten ++ post
        = (pre ++ serialize_array x) ++ ((xs.map serialize_array).flatten ++ post) := by
      simp
    rw [hb]
    show parse_arrays_loop _ (xs.length + 1) pre.length = _
    rw [parse_arrays_loop, parse_array_size_chain pre x _ (hl x (by simp))]
    have ih2 := ih (fun e he => hl e (by simp [he])) (pre ++ serialize_array x)
    simp only [List.append_assoc] at ih2 ⊢
    rw [ih2]

theorem parse_arrays_serialize (l : List (List Nat))
    (hcount : l.length < 2 ^ 16) (hl : ∀ e ∈ l, e.length < 2 ^ 16) :
    parse_arrays (serialize_arrays l) = .ok l := by
  have hloop := parse_arrays_loop_ok l hl (pack16 l.length) []
  rw [pack16_length] at hloop
  simp only [List.append_nil] at hloop
  have hb : serialize_arrays l
      = pack16 l.length ++ (l.map serialize_array).flatten := rfl
  rw [hb]
  unfold parse_arrays
  rw [if_neg (by simp [pack16])]
  have hsl : pySlice (pack16 l.length ++ (l.map serialize_array).flatten) 0 2
      = pack16 l.length := by
    show ((pack16 l.length ++ (l.map serialize_array).flatten).drop 0).take (2 - 0)
        = pack16 l.length
    rw [List.drop_zero]
    exact List.take_left' (pack16_length _)
  rw [hsl, unpackBE_pack16 _ hcount]
  exact hloop

end Vsyspy
namespace Vsyspy


/-- C1: for every list xs of validly constructed DataEntry values (valid in
the sense of the spec section 3 invariant, captured by ValidEntry) whose
count fits the 2-byte count field, decoding the serialized list recovers xs
exactly: data_entries_from_bytes (serialize_data xs) succeeds and returns
the entries of xs in order (each wrapped in the `some` that models the
non-None Python result), with the same tag and the same decoded value. -/
theorem data_entries_round_trip (xs : List DataEntry)
    (hxs : ∀ x ∈ xs, ValidEntry x) (hlen : xs.length < 2 ^ 16) :
    data_entries_from_bytes (serialize_data xs) = .ok (xs.map some) :=
  serialize_round_nil xs hxs hlen

/-- Witness for C1 at the concrete Amount-100 entry of spec section 8. -/
theorem data_entries_round_trip_witness :
    data_entries_from_bytes (serialize_data [amount100]) = .ok [some amount100] :=
  data_entries_round_trip [amount100]
    (by
      intro x hx
      simp at hx
      subst hx
      exact amount100_valid)
    (by decide)

/-- C2: for every valid Contract value (4-byte language code, 4-byte
big-endian language version, state map empty when the version is 1, and all
sections within the 2-byte length bounds), parsing its serialization
recovers every field, for version 1 and for any other version alike. -/
theorem contract_bytes_round_trip (c : Contract)
    (hcode : c.language_code.length = 4)
    (hver : c.language_version.length = 4)
    (hv1 : c.language_version = pack32 1 → c.state_map = [])
    (ht : SectionOK c.trigger) (hd : SectionOK c.descriptor)
    (hs : SectionOK c.state_variable) (hm : SectionOK c.state_map)
    (hx : SectionOK c.textual) :
    Contract.from_bytes c.bytes = .ok c := by
  obtain ⟨code, ver, tr, de, sv, sm, tx⟩ := c
  simp only [Contract.mk.injEq] at *
  obtain ⟨ht1, ht2, ht3⟩ := ht
  obtain ⟨hd1, hd2, hd3⟩ := hd
  obtain ⟨hs1, hs2, hs3⟩ := hs
  obtain ⟨hm1, hm2, hm3⟩ := hm
  obtain ⟨hx1, hx2, hx3⟩ := hx
  by_cases hv : ver = pack32 1
  · subst hv
    have hsm0 : sm = [] := hv1 rfl
    subst hsm0
    have e1 : Contract.bytes ⟨code, pack32 1, tr, de, sv, [], tx⟩
        = ((code ++ pack32 1) ++ serialize_array (serialize_arrays tr))
          ++ (serialize_array (serialize_arrays de)
            ++ (serialize_array (serialize_arrays sv) ++ serialize_arrays tx)) := by
      simp [Contract.bytes]
    have h1 := parse_array_size_chain (code ++ pack32 1) (serialize_arrays tr)
      (serialize_array (serialize_arrays de)
        ++ (serialize_array (serialize_arrays sv) ++ serialize_arrays tx)) ht3
    rw [← e1] at h1
    rw [show (code ++ pack32 1).length = 4 + 4 by simp [hcode, pack32_length]] at h1
    have hr1 := parse_arrays_serialize tr ht1 ht2
    have e2 : Contract.bytes ⟨code, pack32 1, tr, de, sv, [], tx⟩
        = (((code ++ pack32 1) ++ serialize_array (serialize_arrays tr))
            ++ serialize_array (serialize_arrays de))
          ++ (serialize_array (serialize_arrays sv) ++ serialize_arrays tx) := by
      simp [Contract.bytes]
    have h2 := parse_array_size_chain
      ((code ++ pack32 1) ++ serialize_array (serialize_arrays tr))
      (serialize_arrays de)
      (serialize_array (serialize_arrays sv) ++ serialize_arrays tx) hd3
    rw [← e2] at h2
    have hr2 := parse_arrays_serialize de hd1 hd2
    have e3 : Contract.bytes ⟨code, pack32 1, tr, de, sv, [], tx⟩
        = ((((code ++ pack32 1) ++ serialize_array (serialize_arrays tr))
            ++ serialize_array (serialize_arrays de))
            ++ serialize_array (serialize_arrays sv))
          ++ serialize_arrays tx := by
      simp [Contract.bytes]
    have h3 := parse_array_size_chain
      (((code ++ pack32 1) ++ serialize_array (serialize_arrays tr))
        ++ serialize_array (serialize_arrays de))
      (serialize_arrays sv) (serialize_arrays tx) hs3
    rw [← e3] at h3
    have hr3 := parse_arrays_serialize sv hs1 hs2
    have e0 : Contract.bytes ⟨code, pack32 1, tr, de, sv, [], tx⟩
        = code ++ (pack32 1
            ++ (serialize_array (serialize_arrays tr)
              ++ (serialize_array (serialize_arrays de)
                ++ (serialize_array (serialize_arrays sv) ++ serialize_arrays tx)))) := by
      simp [Contract.bytes]
    have hvs : pySlice (Contract.bytes ⟨code, pack32 1, tr, de, sv, [], tx⟩) 4 8
        = pack32 1 := by
      have hstep := pySlice_pre code (pack32 1
            ++ (serialize_array (serialize_arrays tr)
              ++ (serialize_array (serialize_arrays de)
                ++ (serialize_array (serialize_arrays sv) ++ serialize_arrays tx)))) 8
      rw [hcode] at hstep
      rw [e0, hstep, show (8 : Nat) - 4 = 4 from rfl]
      exact List.take_left' (pack32_length 1)
    have hcs : pySlice (Contract.bytes ⟨code, pack32 1, tr, de, sv, [], tx⟩) 0 4
        = code := by
      rw [e0]
      show ((code ++ _).drop 0).take (4 - 0) = code
      rw [List.drop_zero, Nat.sub_zero]
      exact List.take_left' hcode
    have hsm : parse_arrays (pack16 0) = .ok ([] : List (List Nat)) := by decide
    have htx : pySlice (Contract.bytes ⟨code, pack32 1, tr, de, sv, [], tx⟩)
        ((((code ++ pack32 1) ++ serialize_array (serialize_arrays tr))
            ++ serialize_array (serialize_arrays de))
            ++ serialize_array (serialize_arrays sv)).length
        (Contract.bytes ⟨code, pack32 1, tr, de, sv, [], tx⟩).length
        = serialize_arrays tx := by
      rw [e3, pySlice_pre]
      rw [show (((((code ++ pack32 1) ++ serialize_array (serialize_arrays tr))
            ++ serialize_array (serialize_arrays de))
            ++ serialize_array (serialize_arrays sv)) ++ serialize_arrays tx).length
          - ((((code ++ pack32 1) ++ serialize_array (serialize_arrays tr))
            ++ serialize_array (serialize_arrays de))
            ++ serialize_array (serialize_arrays sv)).length
          = (serialize_arrays tx).length by simp; omega]
      exact List.take_length _
    have hrtx := parse_arrays_serialize tx hx1 hx2
    unfold Contract.from_bytes
    simp only [h1, hr1, h2, hr2, h3, hr3, hvs]
    simp only [if_true]
    simp only [hsm, htx, hrtx, hcs]
  · have e1 : Contract.bytes ⟨code, ver, tr, de, sv, sm, tx⟩
        = ((code ++ ver) ++ serialize_array (serialize_arrays tr))
          ++ (serialize_array (serialize_arrays de)
            ++ (serialize_array (serialize_arrays sv)
              ++ (serialize_array (serialize_arrays sm) ++ serialize_arrays tx))) := by
      simp [Contract.bytes, hv]
    have h1 := parse_array_size_chain (code ++ ver) (serialize_arrays tr)
      (serialize_array (serialize_arrays de)
        ++ (serialize_array (serialize_arrays sv)
          ++ (serialize_array (serialize_arrays sm) ++ serialize_arrays tx))) ht3
    rw [← e1] at h1
    rw [show (code ++ ver).length = 4 + 4 by simp [hcode, hver]] at h1
    have hr1 := parse_arrays_serialize tr ht1 ht2
    have e2 : Contract.bytes ⟨code, ver, tr, de, sv, sm, tx⟩
        = (((code ++ ver) ++ serialize_array (serialize_arrays tr))
            ++ serialize_array (serialize_arrays de))
          ++ (serialize_array (serialize_arrays sv)
            ++ (serialize_array (serialize_arrays sm) ++ serialize_arrays tx)) := by
      simp [Contract.bytes, hv]
    have h2 := parse_array_size_chain
      ((code ++ ver) ++ serialize_array (serialize_arrays tr))
      (serialize_arrays de)
      (serialize_array (serialize_arrays sv)
        ++ (serialize_array (serialize_arrays sm) ++ serialize_arrays tx)) hd3
    rw [← e2] at h2
    have hr2 := parse_arrays_serialize de hd1 hd2
    have e3 : Contract.bytes ⟨code, ver, tr, de, sv, sm, tx⟩
        = ((((code ++ ver) ++ serialize_array (serialize_arrays tr))
            ++ serialize_array (serialize_arrays de))
            ++ serialize_array (serialize_arrays sv))
          ++ (serialize_array (serialize_arrays sm) ++ serialize_arrays tx) := by
      simp [Contract.bytes, hv]
    have h3 := parse_array_size_chain
      (((code ++ ver) ++ serialize_array (serialize_arrays tr))
        ++ serialize_array (serialize_arrays de))
      (serialize_arrays sv)
      (serialize_array (serialize_arrays sm) ++ serialize_arrays tx) hs3
    rw [← e3] at h3
    have hr3 := parse_arrays_serialize sv hs1 hs2
    have e4 : Contract.bytes ⟨code, ver, tr, de, sv, sm, tx⟩
        = (((((code ++ ver) ++ serialize_array (serialize_arrays tr))
            ++ serialize_array (serialize_arrays de))
            ++ serialize_array (serialize_arrays sv))
            ++ serialize_array (serialize_arrays sm))
          ++ serialize_arrays tx := by
      simp [Contract.bytes, hv]
    have h4 := parse_array_size_chain
      ((((code ++ ver) ++ serialize_array (serialize_arrays tr))
        ++ serialize_array (serialize_arrays de))
        ++ serialize_array (serialize_arrays sv))
      (serialize_arrays sm) (serialize_arrays tx) hm3
    rw [← e4] at h4
    have hr4 := parse_arrays_serialize sm hm1 hm2
    have e0 : Contract.bytes ⟨code, ver, tr, de, sv, sm, tx⟩
        = code ++ (ver
            ++ (serialize_array (serialize_arrays tr)
              ++ (serialize_array (serialize_arrays de)
                ++ (serialize_array (serialize_arrays sv)
                  ++ (serialize_array (serialize_arrays sm) ++ serialize_arrays tx))))) := by
      simp [Contract.bytes, hv]
    have hvs : pySlice (Contract.bytes ⟨code, ver, tr, de, sv, sm, tx⟩) 4 8
        = ver := by
      have hstep := pySlice_pre code (ver
            ++ (serialize_array (serialize_arrays tr)
              ++ (serialize_array (serialize_arrays de)
                ++ (serialize_array (serialize_arrays sv)
                  ++ (serialize_array (serialize_arrays sm) ++ serialize_arrays tx))))) 8
      rw [hcode] at hstep
      rw [e0, hstep, show (8 : Nat) - 4 = 4 from rfl]
      exact List.take_left' hver
    have hcs : pySlice (Contract.bytes ⟨code, ver, tr, de, sv, sm, tx⟩) 0 4
        = code := by
      rw [e0]
      show ((code ++ _).drop 0).take (4 - 0) = code
      rw [List.drop_zero, Nat.sub_zero]
      exact List.take_left' hcode
    have htx : pySlice (Contract.bytes ⟨code, ver, tr, de, sv, sm, tx⟩)
        (((((code ++ ver) ++ serialize_array (serialize_arrays tr))
            ++ serialize_array (serialize_arrays de))
            ++ serialize_array (serialize_arrays sv))
            ++ serialize_array (serialize_arrays sm)).length
        (Contract.bytes ⟨code, ver, tr, de, sv, sm, tx⟩).length
        = serialize_arrays tx := by
      rw [e4, pySlice_pre]
      rw [show ((((((code ++ ver) ++ serialize_array (serialize_arrays tr))
            ++ serialize_array (serialize_arrays de))
            ++ serialize_array (serialize_arrays sv))
            ++ serialize_array (serialize_arrays sm)) ++ serialize_arrays tx).length
          - (((((code ++ ver) ++ serialize_array (serialize_arrays tr))
            ++ serialize_array (serialize_arrays de))
            ++ serialize_array (serialize_arrays sv))
            ++ serialize_array (serialize_arrays sm)).length
          = (serialize_arrays tx).length by simp; omega]
      exact List.take_length _
    have hrtx := parse_arrays_serialize tx hx1 hx2
    unfold Contract.from_bytes
    simp only [h1, hr1, h2, hr2, h3, hr3, hvs]
    simp only [if_neg hv]
    simp only [h4, hr4, htx, hrtx, hcs]

end Vsyspy
namespace Vsyspy

/-- Witness for C2 at a concrete version-2 contract. -/
theorem contract_bytes_round_trip_witness :
    Contract.from_bytes sampleContractV2.bytes = .ok sampleContractV2 :=
  contract_bytes_round_trip sampleContractV2 (by decide) (by decide) (by decide)
    (by decide) (by decide) (by decide) (by decide) (by decide)

/-- C3: a version-1 contract serializes without any state-map frame (the
wire bytes do not depend on the state_map field at all and consist of
exactly the header, the three framed sections and the textual section),
while a version other than 1 always serializes the state-map frame between
the state-variable and textual sections, and an empty state-map list still
frames to the blob-wrapped zero count bytes 00 02 00 00. -/
theorem version_gates_state_map (c : Contract) :
    (c.language_version = pack32 1 →
      (∀ sm, Contract.bytes { c with state_map := sm } = Contract.bytes c) ∧
      Contract.bytes c
        = c.language_code ++ c.language_version
          ++ serialize_array (serialize_arrays c.trigger)
          ++ serialize_array (serialize_arrays c.descriptor)
          ++ serialize_array (serialize_arrays c.state_variable)
          ++ serialize_arrays c.textual) ∧
    (c.language_version ≠ pack32 1 →
      Contract.bytes c
        = c.language_code ++ c.language_version
          ++ serialize_array (serialize_arrays c.trigger)
          ++ serialize_array (serialize_arrays c.descriptor)
          ++ serialize_array (serialize_arrays c.state_variable)
          ++ serialize_array (serialize_arrays c.state_map)
          ++ serialize_arrays c.textual ∧
      (c.state_map = [] →
        serialize_array (serialize_arrays c.state_map) = [0, 2, 0, 0])) := by
  constructor
  · intro hv
    constructor
    · intro sm
      simp [Contract.bytes, hv]
    · simp [Contract.bytes, hv]
  · intro hv
    constructor
    · simp [Contract.bytes, hv]
    · intro h
      rw [h]
      rfl

/-- Witness for C3 at concrete version-1 and version-2 contracts. -/
theorem version_gates_state_map_witness :
    Contract.bytes { sampleContractV1 with state_map := [[9, 9]] }
        = Contract.bytes sampleContractV1 ∧
    serialize_array (serialize_arrays sampleContractV2empty.state_map)
        = [0, 2, 0, 0] :=
  ⟨((version_gates_state_map sampleContractV1).1 (by decide)).1 [[9, 9]],
   ((version_gates_state_map sampleContractV2empty).2 (by decide)).2 (by decide)⟩

/-- C4: on the input whose declared count is 1 and whose element starts
with the unregistered tag byte 0x0A, the dispatch returns None (the Python
fallthrough) and the whole decode aborts; but the error that reaches the
caller is the TypeError raised while unpacking the None pair, not an
UnknownTag error, which does not exist in the code. -/
theorem unknown_tag_decode_aborts :
    parse_data_entry_array_size [0, 1, 10] 2 = .ok none ∧
    data_entries_from_bytes [0, 1, 10] = .error .typeError := by decide

end Vsyspy
namespace Vsyspy

/-- C5: on the empty input, structural parsing of the contract fails, but
the error reaching the caller is the TruncatedInput of the section parser,
not InvalidContractException: the handler `except ValueError or TypeError`
evaluates to ValueError alone, so only ValueError is converted. -/
theorem from_bytes_failure_not_invalid_contract : Contract.from_bytes [] = .error .truncatedInput := by decide

/-- C6: for every instruction table whose total size fits the 2-byte length
field (which covers every function of both catalog templates), the leading
2-byte declared length of the opcode-list frame emitted by list_opc_gen
equals the sum over the zipped instructions of 2 + len(opcode) +
len(operandIndexes), plus 2, and that is exactly the number of bytes that
follow the length field. -/
theorem list_opc_gen_declared_length (ids idx : List (List Nat))
    (hb : ((ids.zip idx).map (fun x => x.1.length + x.2.length + 2)).sum + 2
      < 2 ^ 16) :
    unpackBE (pySlice (list_opc_gen ids idx) 0 2)
        = ((ids.zip idx).map (fun x => x.1.length + x.2.length + 2)).sum + 2
      ∧ ((list_opc_gen ids idx).drop 2).length
        = ((ids.zip idx).map (fun x => x.1.length + x.2.length + 2)).sum + 2 := by
  have hsum : ((ids.zip idx).map (fun x => (x.1 ++ x.2).length + 2)).sum
      = ((ids.zip idx).map (fun x => x.1.length + x.2.length + 2)).sum := by
    simp [List.length_append]
  have hflat : ∀ l : List (List Nat × List Nat),
      ((l.map (fun x => pack16 (x.1 ++ x.2).length ++ x.1 ++ x.2)).flatten).length
        = (l.map (fun x => x.1.length + x.2.length + 2)).sum := by
    intro l
    induction l with
    | nil => rfl
    | cons a l ih =>
      rw [List.map_cons, List.flatten_cons, List.length_append, ih, List.map_cons, List.sum_cons]
      simp only [List.length_append, pack16_length]
      omega
  constructor
  · have hsl : pySlice (list_opc_gen ids idx) 0 2
        = pack16 (((ids.zip idx).map (fun x => (x.1 ++ x.2).length + 2)).sum + 2) := by
      show ((list_opc_gen ids idx).drop 0).take (2 - 0) = _
      rw [List.drop_zero, Nat.sub_zero]
      unfold list_opc_gen
      rw [List.append_assoc]
      exact List.take_left' (pack16_length _)
    rw [hsl, hsum, unpackBE_pack16 _ hb]
  · unfold list_opc_gen
    rw [List.append_assoc, List.drop_left' (pack16_length _)]
    rw [List.length_append, pack16_length, hflat (ids.zip idx)]
    omega

/-- Witness for C6 at a concrete two-instruction table. -/
theorem list_opc_gen_declared_length_witness :
    unpackBE (pySlice (list_opc_gen [[5, 3], [1, 2]] [[3], [4, 5]]) 0 2)
        = ((([[5, 3], [1, 2]] : List (List Nat)).zip
            ([[3], [4, 5]] : List (List Nat))).map
            (fun x => x.1.length + x.2.length + 2)).sum + 2
      ∧ ((list_opc_gen [[5, 3], [1, 2]] [[3], [4, 5]]).drop 2).length
        = ((([[5, 3], [1, 2]] : List (List Nat)).zip
            ([[3], [4, 5]] : List (List Nat))).map
            (fun x => x.1.length + x.2.length + 2)).sum + 2 :=
  list_opc_gen_declared_length [[5, 3], [1, 2]] [[3], [4, 5]] (by decide)

/-- C7: a ShortText entry whose body is exactly 140 bytes constructs
successfully, carries the framed body in its wire bytes, and decodes back
from its serialized list to the same text; a body of 141 bytes is rejected
with ValueError (the InvalidValue of the spec). -/
theorem short_text_boundary (bs bs2 : List Nat)
    (h140 : bs.length = 140) (h141 : bs2.length = 141) :
    (∃ e, mkDataEntry (.vStr bs) 5 = .ok e ∧
      e.bytes = 5 :: (pack16 140 ++ bs) ∧ e.data = .vStr bs ∧
      data_entries_from_bytes (serialize_data [e]) = .ok [some e]) ∧
    mkDataEntry (.vStr bs2) 5 = .error .valueError := by
  constructor
  · refine ⟨⟨.vStr bs, 5, serialize_array bs, 5 :: serialize_array bs,
      "short_text"⟩, ?_, ?_, rfl, ?_⟩
    · have hr : ¬ ((65536 : Nat) ≤ bs.length) := by omega
      have hlen : bs.length ≤ 140 := by omega
      simp [mkDataEntry, check_data_type, hr, hlen]
    · simp [serialize_array, h140]
    · apply serialize_round_nil
      · intro x hx
        simp at hx
        subst hx
        exact ⟨.vStr bs, 5, by
          have hr : ¬ ((65536 : Nat) ≤ bs.length) := by omega
          have hlen : bs.length ≤ 140 := by omega
          simp [mkDataEntry, check_data_type, hr, hlen], by simp, by simp⟩
      · simp
  · have hr : ¬ ((65536 : Nat) ≤ bs2.length) := by omega
    have hlen : ¬ (bs2.length ≤ 140) := by omega
    simp [mkDataEntry, check_data_type, hr, hlen]

/-- Witness for C7 at concrete 140- and 141-byte texts. -/
theorem short_text_boundary_witness :
    (∃ e, mkDataEntry (.vStr (List.replicate 140 97)) 5 = .ok e ∧
      e.bytes = 5 :: (pack16 140 ++ List.replicate 140 97) ∧
      e.data = .vStr (List.replicate 140 97) ∧
      data_entries_from_bytes (serialize_data [e]) = .ok [some e]) ∧
    mkDataEntry (.vStr (List.replicate 141 97)) 5 = .error .valueError :=
  short_text_boundary (List.replicate 140 97) (List.replicate 141 97)
    (by simp) (by simp)

/-- C8: an Amount entry with value 0 is rejected with ValueError (the
InvalidValue of the spec); construction succeeds exactly for the integers
from 1 to 2^64 - 1 inclusive (so 1 and 2^64 - 1 succeed), and every
successful construction packs the value big-endian into 8 bytes after the
tag byte. -/
theorem amount_boundary :
    mkDataEntry (.vInt 0) 3 = .error .valueError ∧
    (∀ i : Int, (∃ e, mkDataEntry (.vInt i) 3 = .ok e) ↔ 1 ≤ i ∧ i ≤ 2 ^ 64 - 1) ∧
    (∀ i : Int, ∀ e : DataEntry, mkDataEntry (.vInt i) 3 = .ok e →
      e.data_bytes = pack64 i.toNat ∧ e.bytes = 3 :: pack64 i.toNat) := by
  refine ⟨by decide, ?_, ?_⟩
  · intro i
    constructor
    · rintro ⟨e, he⟩
      obtain ⟨j, hj, hpos, hlt, _⟩ := mkDataEntry_ok_inv_amount he rfl
      have : i = j := by injection hj
      omega
    · rintro ⟨hge, hle⟩
      refine ⟨⟨.vInt i, 3, pack64 i.toNat, 3 :: pack64 i.toNat, "amount"⟩, ?_⟩
      have hr : ¬ (i < 0 ∨ (18446744073709551616 : Int) ≤ i) := by omega
      have hpos : 0 < i := by omega
      simp [mkDataEntry, check_data_type, hr, hpos]
  · intro i e he
    obtain ⟨j, hj, hpos, hlt, hxeq⟩ := mkDataEntry_ok_inv_amount he rfl
    have hij : i = j := by injection hj
    subst hij hxeq
    exact ⟨rfl, rfl⟩

/-- Witness for C8 at the values 1, 2^64 - 1 and 0. -/
theorem amount_boundary_witness :
    (∃ e, mkDataEntry (.vInt 1) 3 = .ok e) ∧
    (∃ e, mkDataEntry (.vInt (2 ^ 64 - 1)) 3 = .ok e) ∧
    mkDataEntry (.vInt 0) 3 = .error .valueError := by
  have h := amount_boundary
  exact ⟨(h.2.1 1).mpr (by norm_num), (h.2.1 (2 ^ 64 - 1)).mpr (by norm_num),
    h.1⟩

/-- C9: the registered tags Account (7), Boolean (10) and Balance (11) pass
the type check (its default branch returns True) but no constructor branch
sets the payload bytes, so construction always fails with AttributeError
when the final bytes are assembled; construction can only succeed for the
eight tags 1, 2, 3, 4, 5, 6, 8 and 9. -/
theorem unhandled_tags_unusable :
    (∀ (d : DEValue) (t : Nat), (t = 7 ∨ t = 10 ∨ t = 11) →
      check_data_type d t = .ok true ∧ mkDataEntry d t = .error .attributeError) ∧
    (∀ (d : DEValue) (t : Nat) (x : DataEntry), mkDataEntry d t = .ok x →
      t = 1 ∨ t = 2 ∨ t = 3 ∨ t = 4 ∨ t = 5 ∨ t = 6 ∨ t = 8 ∨ t = 9) := by
  refine ⟨?_, fun d t x h => mkDataEntry_ok_tags h⟩
  rintro d t (rfl | rfl | rfl) <;>
    exact ⟨by simp [check_data_type], by simp [mkDataEntry, check_data_type]⟩

/-- Witness for C9 at tag 7. -/
theorem unhandled_tags_unusable_witness :
    check_data_type (.vStr []) 7 = .ok true ∧
    mkDataEntry (.vStr []) 7 = .error .attributeError :=
  unhandled_tags_unusable.1 (.vStr []) 7 (Or.inl rfl)

/-- C10: the decoder reads exactly the declared number of entries and
stops: appending any byte suffix to a validly encoded DataEntry list leaves
the decode result unchanged, and it still succeeds with the original
entries — trailing bytes are silently ignored. -/
theorem decode_ignores_trailing_bytes (xs : List DataEntry)
    (hxs : ∀ x ∈ xs, ValidEntry x) (hlen : xs.length < 2 ^ 16) (t : List Nat) :
    data_entries_from_bytes (serialize_data xs ++ t)
        = data_entries_from_bytes (serialize_data xs) ∧
    data_entries_from_bytes (serialize_data xs ++ t) = .ok (xs.map some) := by
  have h1 := data_entries_from_bytes_serialize xs hxs hlen t
  have h2 := serialize_round_nil xs hxs hlen
  exact ⟨h1.trans h2.symm, h1⟩

/-- Witness for C10 at the Amount-100 list with a three-byte suffix. -/
theorem decode_ignores_trailing_bytes_witness :
    data_entries_from_bytes (serialize_data [amount100] ++ [255, 0, 1])
        = data_entries_from_bytes (serialize_data [amount100]) :=
  (decode_ignores_trailing_bytes [amount100]
    (by
      intro x hx
      simp at hx
      subst hx
      exact amount100_valid)
    (by decide) [255, 0, 1]).1

/-- Concrete scenario of spec section 8: the Amount-100 singleton list
serializes to count 1 followed by tag 3 and the big-endian value. -/
theorem amount100_wire_bytes :
    serialize_data [amount100] = [0, 1, 3, 0, 0, 0, 0, 0, 0, 0, 100] := by decide

/-- Concrete scenario of spec section 8: the ShortText "hi" singleton list
serializes to count 1, tag 5, inner length 2 and the two text bytes. -/
theorem short_text_hi_wire_bytes :
    (mkDataEntry (.vStr [104, 105]) 5).map (fun e => serialize_data [e])
      = .ok [0, 1, 5, 0, 2, 104, 105] := by decide

end Vsyspy
